import Mathlib

/-!
Verification of the SmartAgent protocol-plugin framework and the
DELL EMC Unity polling plugin, as a shallow embedding of the Python
sources (src/python/DELL_EMC_Unity.py, src/python/protocol_plugin.py,
src/python/test_protocol.py) in Lean.
-/

/-- Python-2 values as they occur in the decoded JSON trees the agent
manipulates: None, booleans, integers, unicode strings, lists and
string-keyed dicts (modelled as association lists in insertion order). -/
inductive PyVal : Type
  | none : PyVal
  | bool : Bool → PyVal
  | int : Int → PyVal
  | str : String → PyVal
  | list : List PyVal → PyVal
  | dict : List (String × PyVal) → PyVal

mutual

/-- Structural equality test on PyVal (Python ==), on values. -/
def pyValBeq : PyVal → PyVal → Bool
  | .none, .none => true
  | .bool a, .bool b => a == b
  | .int a, .int b => a == b
  | .str a, .str b => a == b
  | .list a, .list b => pyValListBeq a b
  | .dict a, .dict b => pyValKvsBeq a b
  | _, _ => false

/-- Structural equality test on PyVal (Python ==), on lists. -/
def pyValListBeq : List PyVal → List PyVal → Bool
  | [], [] => true
  | a :: as, b :: bs => pyValBeq a b && pyValListBeq as bs
  | _, _ => false

/-- Structural equality test on PyVal (Python ==), on dict items. -/
def pyValKvsBeq : List (String × PyVal) → List (String × PyVal) → Bool
  | [], [] => true
  | a :: as, b :: bs => a.1 == b.1 && pyValBeq a.2 b.2 && pyValKvsBeq as bs
  | _, _ => false

end

instance : BEq PyVal := ⟨pyValBeq⟩

/-- Python truthiness: None, False, 0, the empty string and empty
containers are falsy, everything else is truthy. -/
def pyTruthy : PyVal → Bool
  | .none => false
  | .bool b => b
  | .int n => n != 0
  | .str s => s != ""
  | .list xs => !xs.isEmpty
  | .dict kvs => !kvs.isEmpty

/-- Exceptions the Unity session code can raise. `keyError` models a
Python KeyError with its key, `typeError` a TypeError, `valueError` a
ValueError, `exception` a generic Exception with its message and
`protocolError` the ProtocolError raised by UnityProtocol.run_queries. -/
inductive PyErr : Type
  | keyError (key : String)
  | typeError
  | valueError
  | exception (msg : String)
  | protocolError (msg : String)
deriving DecidableEq

/-- Python dict.get: the value stored under key `k`, if any (dict keys are
unique, so the first association wins). -/
def pyDictGet (kvs : List (String × PyVal)) (k : String) : Option PyVal :=
  (kvs.find? (fun kv => kv.1 == k)).map (fun kv => kv.2)

/-- Python dict item assignment `d[k] = v`: replace the value under an
existing key in place, otherwise append a new association. -/
def pyDictSet (kvs : List (String × PyVal)) (k : String) (v : PyVal) :
    List (String × PyVal) :=
  if kvs.any (fun kv => kv.1 == k) then
    kvs.map (fun kv => if kv.1 == k then (k, v) else kv)
  else kvs ++ [(k, v)]

mutual

/-- Python 2 repr of a value (used by str() for values nested inside
containers): unicode strings print with a u prefix and quotes, lists in
brackets, dicts in braces. -/
def pyRepr : PyVal → String
  | .none => "None"
  | .bool b => if b then "True" else "False"
  | .int n => toString n
  | .str s => "u" ++ String.singleton (Char.ofNat 39) ++ s ++ String.singleton (Char.ofNat 39)
  | .list xs => "[" ++ pyReprList xs ++ "]"
  | .dict kvs => "\x7b" ++ pyReprKvs kvs ++ "\x7d"

/-- Comma-separated reprs of the elements of a list. -/
def pyReprList : List PyVal → String
  | [] => ""
  | [x] => pyRepr x
  | x :: xs => pyRepr x ++ ", " ++ pyReprList xs

/-- Comma-separated key: value reprs of the items of a dict. -/
def pyReprKvs : List (String × PyVal) → String
  | [] => ""
  | [kv] => "u" ++ String.singleton (Char.ofNat 39) ++ kv.1 ++ String.singleton (Char.ofNat 39) ++ ": " ++ pyRepr kv.2
  | kv :: kvs => "u" ++ String.singleton (Char.ofNat 39) ++ kv.1 ++ String.singleton (Char.ofNat 39) ++ ": " ++ pyRepr kv.2 ++ ", " ++ pyReprKvs kvs

end

/-- Python 2 str() of a value: strings print bare, scalars as usual,
containers via repr. -/
def pyStr : PyVal → String
  | .none => "None"
  | .bool b => if b then "True" else "False"
  | .int n => toString n
  | .str s => s
  | .list xs => pyRepr (.list xs)
  | .dict kvs => pyRepr (.dict kvs)

/-- Effect of the wildcard step in UnitySession.follow_path, from
`new_branches += branch if branch else []`: a falsy branch contributes
nothing; iterating a truthy list yields its elements, a truthy dict its
keys, a truthy string its characters; a truthy number or True is not
iterable and raises TypeError. -/
def starExpand (branch : PyVal) : Except PyErr (List PyVal) :=
  if pyTruthy branch then
    match branch with
    | .list xs => .ok xs
    | .dict kvs => .ok (kvs.map (fun kv => PyVal.str kv.1))
    | .str s => .ok (s.toList.map (fun c => PyVal.str (String.singleton c)))
    | _ => .error .typeError
  else .ok []

/-- One branch of one step of UnitySession.follow_path: the wildcard
expands the branch, any other step appends `branch.get(step, None)` when
the branch is a dict and None otherwise. -/
def stepBranch (step : String) (branch : PyVal) : Except PyErr (List PyVal) :=
  if step = "*" then starExpand branch
  else .ok [match branch with
            | .dict kvs => (pyDictGet kvs step).getD PyVal.none
            | _ => PyVal.none]

/-- One step of UnitySession.follow_path: fold the step over every branch
of the current tree, concatenating the contributions in order. -/
def stepTree (step : String) (tree : List PyVal) : Except PyErr (List PyVal) :=
  tree.foldlM (fun acc branch => do
    let nb ← stepBranch step branch
    pure (acc ++ nb)) []

/-- UnitySession.follow_path (DELL_EMC_Unity.py lines 121-133): start from
the value itself (or its elements when it is a list) and apply every step
of the path in turn. -/
def UnitySession.follow_path (dictionary : PyVal) (path : List String) :
    Except PyErr (List PyVal) :=
  path.foldlM (fun tree step => stepTree step tree)
    (match dictionary with
     | .list xs => xs
     | v => [v])

/-- The starting branch list of follow_path (lines 122-124): the elements
of a list argument, the singleton of any other value. -/
def initTree : PyVal → List PyVal
  | .list xs => xs
  | v => [v]

/-- Specification-side safety of one wildcard application: the branch is
a list, a dict, a string, or falsy — exactly the branches that
`new_branches += branch if branch else []` can iterate or skip without
raising. -/
def starSafe : PyVal → Bool
  | .list _ => true
  | .dict _ => true
  | .str _ => true
  | v => !pyTruthy v

/-- Specification-side value of one wildcard application to a safe
branch: the elements of a list, the keys of a dict, the one-character
strings of a string, nothing for the falsy leaves (proved below to agree
with starExpand on every safe branch). -/
def starParts : PyVal → List PyVal
  | .list xs => xs
  | .dict kvs => kvs.map (fun kv => PyVal.str kv.1)
  | .str s => s.toList.map (fun c => PyVal.str (String.singleton c))
  | _ => []

/-- Specification-side contribution of one branch under one step: the
wildcard parts, or the dict entry under the step with None as the
fallback. -/
def branchParts (step : String) (branch : PyVal) : List PyVal :=
  if step = "*" then starParts branch
  else [match branch with
        | .dict kvs => (pyDictGet kvs step).getD PyVal.none
        | _ => PyVal.none]

/-- Specification-side result of one step over a branch list: the
concatenated contributions of the branches in order. -/
def stepTreeOk (step : String) (tree : List PyVal) : List PyVal :=
  (tree.map (branchParts step)).flatten

/-- Specification-side check that a walk never applies a wildcard to an
unsafe branch: it mirrors the walk of follow_path, testing starSafe on
every branch that each wildcard step processes. -/
def walkSafe : List String → List PyVal → Bool
  | [], _ => true
  | step :: rest, tree =>
    (step != "*" || tree.all starSafe) && walkSafe rest (stepTreeOk step tree)

/-- Match of the anchored regular expression from UnitySession.fill_in_row,
`\d{1,5}:\d{2}:\d{2}.\d{3}` (re.match: anchored at the start only, the dot
matches any character except a newline, trailing characters are allowed):
one to five digits, a colon, two digits, a colon, two digits, any
character, three digits. -/
def durMatch (s : String) : Bool :=
  let cs := s.toList
  let ds := cs.takeWhile Char.isDigit
  let rest := cs.drop ds.length
  (decide (1 ≤ ds.length) && decide (ds.length ≤ 5)) &&
  match rest with
  | c1 :: a :: b :: c2 :: d :: e :: dot :: f :: g :: h :: _ =>
    c1 == Char.ofNat 58 && a.isDigit && b.isDigit && c2 == Char.ofNat 58 &&
    d.isDigit && e.isDigit && dot != Char.ofNat 10 && f.isDigit && g.isDigit && h.isDigit
  | _ => false

/-- Python str.split(sep) for a one-character separator: split into
pieces, keeping empty pieces, so that splitting the empty string yields
one empty piece. -/
def splitOnChar (sep : Char) : List Char → List (List Char)
  | [] => [[]]
  | c :: rest =>
    let r := splitOnChar sep rest
    if c == sep then [] :: r
    else
      match r with
      | [] => [[c]]
      | p :: ps => (c :: p) :: ps

/-- Python int() on a plain digit string: its numeric value, and failure
on anything that is not all digits (a modelling restriction: signs and
surrounding whitespace, which int() also accepts, never occur here
because the regular expression has already vetted the fields). -/
def digitsVal (cs : List Char) : Option Nat :=
  if cs.isEmpty then Option.none
  else cs.foldlM
    (fun acc c => if c.isDigit then some (acc * 10 + (c.toNat - 48)) else Option.none) 0

/-- Python float() restricted to plain decimal strings, as a pair of the
integer part and the fraction scaled to microseconds. Strings that are not
of the form digits or digits-dot-digits (with at most six fraction
digits) are outside this model; float() on them either fails or needs
rounding, which no caller of this development exercises. -/
def pyFloatParse (cs : List Char) : Option (Nat × Nat) :=
  match splitOnChar (Char.ofNat 46) cs with
  | [w] => (digitsVal w).map (fun n => (n, 0))
  | [w, f] =>
    match digitsVal w, digitsVal f with
    | some n, some fv =>
      if f.length ≤ 6 then some (n, fv * 10 ^ (6 - f.length)) else Option.none
    | _, _ => Option.none
  | _ => Option.none

/-- Python percent-f formatting of the nonnegative decimal n.micro with
six digits after the point. -/
def fmtFloat6 (n : Nat) (micro : Nat) : String :=
  let ds := toString micro
  n.repr ++ "." ++ String.mk (List.replicate (6 - ds.length) (Char.ofNat 48)) ++ ds

/-- The duration reformatting of UnitySession.fill_in_row (lines 208-224):
split on colons, read the first field as hours and the last as seconds,
convert to years, days, hours, minutes and seconds, and join the nonzero
components with commas (truthiness test: a zero component is omitted). -/
def durationString (s : String) : Except PyErr String :=
  let fields := splitOnChar (Char.ofNat 58) s.toList
  match digitsVal (fields.getD 0 []), digitsVal (fields.getD 1 []),
        pyFloatParse (fields.getD 2 []) with
  | some h0, some m1, some sec =>
    let years := h0 / 24 / 365
    let days := h0 / 24 % 365
    let hours := h0 % 24
    let minutes := m1
    let r := if years ≠ 0 then toString years ++ " years" else ""
    let r := if days ≠ 0 then (if r ≠ "" then r ++ ", " else "") ++ toString days ++ " days" else r
    let r := if hours ≠ 0 then (if r ≠ "" then r ++ ", " else "") ++ toString hours ++ " hours" else r
    let r := if minutes ≠ 0 then (if r ≠ "" then r ++ ", " else "") ++ toString minutes ++ " minutes" else r
    let r := if sec ≠ (0, 0) then (if r ≠ "" then r ++ ", " else "") ++ fmtFloat6 sec.1 sec.2 ++ " seconds" else r
    .ok r
  | _, _, _ => .error .valueError

/-- One parameter of UnitySession.fill_in_row: walk the data path; a
single unicode leaf matching the duration pattern is reformatted, any
other single leaf is stored as is, several leaves are joined by newlines
after str(). -/
def fillField (tree : PyVal) (row : List (String × PyVal))
    (parameter datafield : String) : Except PyErr (List (String × PyVal)) := do
  let branch ← UnitySession.follow_path tree
    ((splitOnChar (Char.ofNat 46) parameter.toList).map String.mk)
  match branch with
  | [PyVal.str s] =>
    if durMatch s then do
      let r ← durationString s
      pure (pyDictSet row datafield (PyVal.str r))
    else pure (pyDictSet row datafield (PyVal.str s))
  | [b] => pure (pyDictSet row datafield b)
  | bs => pure (pyDictSet row datafield
      (PyVal.str (String.intercalate "\n" (bs.map pyStr))))

/-- UnitySession.fill_in_row (DELL_EMC_Unity.py lines 203-231): build a
row dict by filling every requested data field from its path in the tree. -/
def UnitySession.fill_in_row (parameters : List (String × String)) (tree : PyVal) :
    Except PyErr (List (String × PyVal)) :=
  parameters.foldlM (fun row pd => fillField tree row pd.1 pd.2) []


/-- A value inside the values dict of one metric entry: either a plain number
per storage processor, or a nested dict of numbers per inner key. -/
inductive MVal : Type
  | num (v : Int)
  | nested (kvs : List (String × Int))

/-- One entry of the metricValue listing, with its timestamp already
parsed to a number (mktime of the parsed timestamp string) and its
optional values dict keyed by storage processor. -/
structure MEntry : Type where
  ts : Int
  values : Option (List (String × MVal))

/-- The per-path state record that UnitySession keeps in self.timestamps
and persists by save_state: the last seen timestamp (None models a JSON
null, stored when a cycle saw no entries) and the last computed rows. -/
structure TsRecord : Type where
  timestamp : Option Int
  result : List (List (String × PyVal))

/-- Which of the four optional output fields the caller requested, and
the data field identifier of each (the parameters dict of
get_historic_metric_value restricted to its four recognized keys). -/
structure MParams : Type where
  sp : Option String
  key : Option String
  value : Option String
  name : Option String

/-- The loop state of get_historic_metric_value: the candidate new
timestamp, the number of accumulated samples, the running sums keyed by
storage processor and optional inner key, the result rows, the done flag
of the while loop and whether the inner for loop was left by break. -/
structure AggSt : Type where
  newTs : Option Int
  count : Nat
  series : List ((String × Option String) × Int)
  result : List (List (String × PyVal))
  done : Bool
  broke : Bool

/-- The loop state at entry to the while loop of
get_historic_metric_value. -/
def initAgg : AggSt :=
  { newTs := Option.none, count := 0, series := [], result := [],
    done := false, broke := false }

/-- timeseries accumulation: `timeseries[k] = timeseries.setdefault(k, 0) + v`
on the insertion-ordered association list. -/
def seriesAdd (series : List ((String × Option String) × Int))
    (k : String × Option String) (v : Int) :
    List ((String × Option String) × Int) :=
  if series.any (fun e => e.1 == k) then
    series.map (fun e => if e.1 == k then (k, e.2 + v) else e)
  else series ++ [(k, v)]

/-- Fold the values dict of one entry into the running sums: a nested dict
contributes one sum per (storage processor, inner key), a plain value one
sum per (storage processor, None). -/
def accValues (series : List ((String × Option String) × Int))
    (vals : List (String × MVal)) : List ((String × Option String) × Int) :=
  vals.foldl (fun acc spv =>
    match spv.2 with
    | .num v => seriesAdd acc (spv.1, Option.none) v
    | .nested kvs =>
        kvs.foldl (fun acc2 kv => seriesAdd acc2 (spv.1, some kv.1) kv.2) acc) series

/-- Python 2 comparison `ts > old` where old may be None: None sorts
below every number. -/
def pyIntGtOptInt (ts : Int) : Option Int → Bool
  | Option.none => true
  | some o => ts > o

/-- Python truthiness of the new_timestamp variable, which is either None
or a number: falsy when None or zero. -/
def optFalsy : Option Int → Bool
  | Option.none => true
  | some n => n == 0

/-- One iteration of the inner for loop of get_historic_metric_value
(lines 151-169), on one entry: skip everything after a break; set the
candidate new timestamp from the first entry whose predecessors left it
falsy; return the cached result and stop when the new timestamp equals
the stored one and nothing has been accumulated yet (KeyError when no
record was stored for the path); accumulate the entry when its timestamp
is newer than the stored one, it has values, and either fewer than six
samples were accumulated or the stored timestamp is nonzero; otherwise
set the done flag and continue with the next entry. -/
def stepEntry (old : Option Int) (cached : Option TsRecord) (st : AggSt)
    (e : MEntry) : Except PyErr AggSt :=
  if st.broke then .ok st
  else
    let nts := if optFalsy st.newTs then some e.ts else st.newTs
    if nts == old && st.series.isEmpty then
      match cached with
      | Option.none => .error (.keyError "result")
      | some r => .ok { st with newTs := nts, result := r.result,
                                done := true, broke := true }
    else if pyIntGtOptInt e.ts old && e.values.isSome &&
            (decide (st.count ≤ 5) || !(old == some 0)) then
      .ok { st with newTs := nts, count := st.count + 1,
                    series := accValues st.series (e.values.getD []) }
    else .ok { st with newTs := nts, done := true }

/-- The while loop of get_historic_metric_value (lines 148-178): process
the entries of the current page in order, then stop if the done flag is set,
follow the next link to the next page if one exists, and otherwise stop. -/
def runPages (old : Option Int) (cached : Option TsRecord) :
    List (List MEntry) → AggSt → List MEntry → Except PyErr AggSt
  | rest, st, page => do
    let st1 ← page.foldlM (stepEntry old cached) st
    if st1.done then pure st1
    else
      match rest with
      | [] => pure { st1 with done := true }
      | p :: ps => runPages old cached ps st1 p

/-- Helper restating the entry step as a total function, valid whenever a
record is stored for the path (the only raising branch needs an absent
record); proved equal to stepEntry below. -/
def stepEntryOk (old : Option Int) (r : TsRecord) (st : AggSt) (e : MEntry) : AggSt :=
  if st.broke then st
  else
    let nts := if optFalsy st.newTs then some e.ts else st.newTs
    if nts == old && st.series.isEmpty then
      { st with newTs := nts, result := r.result, done := true, broke := true }
    else if pyIntGtOptInt e.ts old && e.values.isSome &&
            (decide (st.count ≤ 5) || !(old == some 0)) then
      { st with newTs := nts, count := st.count + 1,
                series := accValues st.series (e.values.getD []) }
    else { st with newTs := nts, done := true }

/-- One output row of get_historic_metric_value (lines 181-191): fill
whichever of the storage-processor, inner-key, mean-value and name fields
were requested; the mean is the Python 2 floor division of the sum by the
sample count, and the inner-key field is only written when the inner key
is not None. -/
def buildRow (params : MParams) (name : PyVal) (sp : String)
    (k : Option String) (v : Int) (count : Nat) : List (String × PyVal) :=
  let row : List (String × PyVal) := []
  let row := match params.sp with
             | some f => pyDictSet row f (PyVal.str sp)
             | Option.none => row
  let row := match params.key, k with
             | some f, some kk => pyDictSet row f (PyVal.str kk)
             | _, _ => row
  let row := match params.value with
             | some f => pyDictSet row f (PyVal.int (Int.fdiv v (count : Int)))
             | Option.none => row
  match params.name with
  | some f => pyDictSet row f name
  | Option.none => row

/-- UnitySession.get_historic_metric_value (DELL_EMC_Unity.py lines
136-195) for one metric path, over the pages the metricValue listing
returns for that path: reads the stored record (an absent record gives a
stored timestamp of 0), walks the pages accumulating new samples, emits
one row per accumulated sum unless the cached result was returned, and
returns the rows together with the record written back to
self.timestamps for the path. -/
def UnitySession.get_historic_metric_value (stored : Option TsRecord)
    (name : PyVal) (params : MParams) (firstPage : List MEntry)
    (morePages : List (List MEntry)) :
    Except PyErr (List (List (String × PyVal)) × TsRecord) := do
  let old : Option Int := match stored with
                          | some r => r.timestamp
                          | Option.none => some 0
  let st ← runPages old stored morePages initAgg firstPage
  let result := if st.result.isEmpty then
      st.series.map (fun kv => buildRow params name kv.1.1 kv.1.2 kv.2 st.count)
    else st.result
  pure (result, { timestamp := st.newTs, result := result })



/-- Whether a character list starts with the given needle. -/
def startsWithChars : List Char → List Char → Bool
  | [], _ => true
  | _ :: _, [] => false
  | a :: as, b :: bs => a == b && startsWithChars as bs

/-- Python substring membership `needle in hay` on character lists. -/
def containsChars (needle : List Char) : List Char → Bool
  | [] => needle.isEmpty
  | c :: rest => startsWithChars needle (c :: rest) || containsChars needle rest

/-- The login HTTP response as UnityProtocol.run_queries inspects it: a
status code and a body text. -/
structure LoginResponse : Type where
  status_code : Int
  text : String

/-- Message of str(AttributeError) for the missing args.username global
read on the authorization-denied branch of UnityProtocol.run_queries (the
server-mode argument parser defines no username option). -/
def unityAuthAttrMsg : String :=
  String.singleton (Char.ofNat 39) ++ "Namespace" ++ String.singleton (Char.ofNat 39) ++
  " object has no attribute " ++
  String.singleton (Char.ofNat 39) ++ "username" ++ String.singleton (Char.ofNat 39)

/-- try_run (DELL_EMC_Unity.py lines 470-474): wrap the result of the command
in an Ok envelope. The exception handler that would convert a raised
exception into an Err envelope is commented out in the source, so an
exception propagates out of try_run unhandled. -/
def try_run (f : Unit → Except PyErr PyVal) : Except PyErr PyVal :=
  match f () with
  | .ok v => .ok (.dict [("Ok", v)])
  | .error e => .error e

/-- The table comprehension of UnityProtocol.run_queries (lines 459-464):
run the tables of the query in order through try_run, recording which
tables were attempted; the first propagated exception aborts the whole
comprehension. The command execution (session.get_table resolving the
CommandName and CommandLine of the table against the loaded inputs and
querying the API) is abstracted as the function `runTable` from table
name to outcome. -/
def runTables (runTable : String → Except PyErr PyVal) :
    List (String × List String) →
    Except PyErr (List (String × PyVal)) × List String
  | [] => (.ok [], [])
  | (t, _fields) :: rest =>
    match try_run (fun _ => runTable t) with
    | .error e => (.error e, [t])
    | .ok env =>
      let (r, calls) := runTables runTable rest
      (r.map (fun tail => (t, env) :: tail), t :: calls)

/-- UnityProtocol.run_queries (DELL_EMC_Unity.py lines 445-468): a login
response with status 404 raises ProtocolError with the 404 detail (the
inner raise is caught by the surrounding except and re-raised with the
same message); an authorization-denied body raises through the broken
args.username read; otherwise the requested tables run in order. The
returned pair carries the outcome and the list of tables whose commands
were executed, so that a raised login error demonstrably runs none. The
logout and save_state calls that follow a fully successful run perform
I/O and are outside this model. -/
def UnityProtocol.run_queries (login : LoginResponse)
    (runTable : String → Except PyErr PyVal)
    (qry : List (String × List String)) :
    Except PyErr (List (String × PyVal)) × List String :=
  if login.status_code == 404 then
    (.error (.protocolError "HTTP Status 404 - Not Found"), [])
  else if containsChars "You are not authorized to view this page.".toList login.text.toList then
    (.error (.protocolError unityAuthAttrMsg), [])
  else runTables runTable qry




/-- A decoded request as ProtocolService.request receives it: either a
plain string (the no-argument operations are sent as their name) or an
object whose keys carry the operation tag and its arguments. -/
inductive Req : Type
  | str (s : String)
  | obj (kvs : List (String × PyVal))

/-- Errors arising in the dispatcher. `notImplemented` models the
`Exception("Request not implemented: " + name)` raises, `keyErr` a
KeyError from a failed dict lookup (carrying the key), and `typeErr` a
TypeError (indexing a string by a string, concatenating a string with a
dict, calling a method with the wrong arity, or using an unhashable
key). -/
inductive DErr : Type
  | notImplemented (what : String)
  | keyErr (key : PyVal)
  | typeErr

/-- One client session of the protocol service, holding the loaded input
and configuration handles by reference (protocol_plugin.py lines
108-111). Handles are modelled as PyVal. -/
structure ProtocolSession : Type where
  inputs : List (PyVal × PyVal)
  configs : List (PyVal × PyVal)

/-- A protocol plugin as ProtocolService drives it: identity strings and
the loader/query methods. The model plugin methods are pure. -/
structure PluginModel : Type where
  protocol : String
  version : String
  load_inputs : PyVal → PyVal
  load_config : PyVal → PyVal
  show_queries : PyVal → PyVal
  run_queries : PyVal → PyVal → PyVal → PyVal

/-- Whether a value can be a Python dict key: lists and dicts are
unhashable. -/
def pyHashable : PyVal → Bool
  | .list _ => false
  | .dict _ => false
  | _ => true

/-- Python dict subscript on a session mapping: TypeError on an
unhashable key, KeyError when the key is absent. -/
def sessGet (m : List (PyVal × PyVal)) (k : PyVal) : Except DErr PyVal :=
  if pyHashable k then
    match m.find? (fun kv => kv.1 == k) with
    | some kv => .ok kv.2
    | Option.none => .error (.keyErr k)
  else .error .typeErr

/-- Python dict item assignment on a session mapping. -/
def sessSet (m : List (PyVal × PyVal)) (k : PyVal) (v : PyVal) :
    List (PyVal × PyVal) :=
  if m.any (fun kv => kv.1 == k) then
    m.map (fun kv => if kv.1 == k then (k, v) else kv)
  else m ++ [(k, v)]

/-- Python string equality `"tag" == req`: true only for the equal
string, false for any dict. -/
def reqIsStr (req : Req) (s : String) : Bool :=
  match req with
  | .str t => t == s
  | .obj _ => false

/-- Python membership `"tag" in req`: substring search when the request
is a string, key membership when it is a dict. -/
def reqHasTag (tag : String) (req : Req) : Bool :=
  match req with
  | .str s => containsChars tag.toList s.toList
  | .obj kvs => kvs.any (fun kv => kv.1 == tag)

/-- Python subscript `req[tag]`: TypeError on a string request (string
indices must be integers), dict lookup on an object request. -/
def reqGet (req : Req) (tag : String) : Except DErr PyVal :=
  match req with
  | .str _ => .error .typeErr
  | .obj kvs =>
    match pyDictGet kvs tag with
    | some v => .ok v
    | Option.none => .error (.keyErr (.str tag))

/-- Python subscript `v[k]` for a string key on a request argument:
KeyError when the dict lacks the key, TypeError when the value is not a
dict. -/
def pyGetField (v : PyVal) (k : String) : Except DErr PyVal :=
  match v with
  | .dict kvs =>
    match pyDictGet kvs k with
    | some x => .ok x
    | Option.none => .error (.keyErr (.str k))
  | _ => .error .typeErr

/-- Which of the ten dispatched method names ProtocolService itself
defines (protocol_plugin.py lines 86-106): the getattr(self, name) guard
in request tests the service object, and the service implements
protocol, version, load_inputs, load_config, show_queries and
run_queries, but neither unload_inputs, unload_config, get_tables nor
get_fields. -/
def serviceImplements : String → Bool
  | "protocol" => true
  | "version" => true
  | "load_inputs" => true
  | "load_config" => true
  | "show_queries" => true
  | "run_queries" => true
  | _ => false

/-- ProtocolService.load_inputs (protocol_plugin.py lines 92-95): mint a
fresh reference (the uuid4 draw is passed in as `fresh`), store the
plugin-loaded handle under it and return the reference. -/
def ProtocolService.load_inputs (pl : PluginModel) (fresh : String)
    (sess : ProtocolSession) (inputs : PyVal) : PyVal × ProtocolSession :=
  (.str fresh,
   { sess with inputs := sessSet sess.inputs (.str fresh) (pl.load_inputs inputs) })

/-- ProtocolService.load_config (protocol_plugin.py lines 97-100): mint a
fresh reference, store the plugin-loaded handle under it and return the
reference. -/
def ProtocolService.load_config (pl : PluginModel) (fresh : String)
    (sess : ProtocolSession) (config : PyVal) : PyVal × ProtocolSession :=
  (.str fresh,
   { sess with configs := sessSet sess.configs (.str fresh) (pl.load_config config) })

/-- ProtocolService.run_queries (protocol_plugin.py lines 105-106):
resolve the input reference, then the config reference, in the session
mappings (a missing reference raises KeyError) and delegate to the
plugin with the resolved handles. -/
def ProtocolService.run_queries (pl : PluginModel) (sess : ProtocolSession)
    (qry inputsRef configRef : PyVal) : Except DErr PyVal := do
  let hi ← sessGet sess.inputs inputsRef
  let hc ← sessGet sess.configs configRef
  pure (pl.run_queries qry hi hc)

/-- ProtocolService.request (protocol_plugin.py lines 33-84): match the
request against the fixed tag vocabulary in source order; each branch
first checks callable(getattr(self, name)) on the service — which fails
permanently for the four methods the service does not define — and then
invokes the service method with the subscripted request arguments. The
show_queries branch passes three arguments to a two-parameter method and
therefore raises TypeError; the final fallthrough concatenates the
request onto the error message, which raises TypeError for dict-shaped
requests. Successful branches return the result value and the (possibly
updated) session. -/
def ProtocolService.request (pl : PluginModel) (fresh : String)
    (sess : ProtocolSession) (req : Req) : Except DErr (PyVal × ProtocolSession) :=
  if reqIsStr req "protocol" then
    .ok (.str pl.protocol, sess)
  else if reqIsStr req "version" then
    .ok (.str pl.version, sess)
  else if reqHasTag "load_inputs" req then do
    let payload ← reqGet req "load_inputs"
    let v ← pyGetField payload "input"
    pure (ProtocolService.load_inputs pl fresh sess v)
  else if reqHasTag "unload_inputs" req then
    .error (.notImplemented "unload_inputs")
  else if reqHasTag "load_config" req then do
    let payload ← reqGet req "load_config"
    let v ← pyGetField payload "config"
    pure (ProtocolService.load_config pl fresh sess v)
  else if reqHasTag "unload_config" req then
    .error (.notImplemented "unload_config")
  else if reqHasTag "show_queries" req then do
    let payload ← reqGet req "show_queries"
    let _q ← pyGetField payload "query"
    let _i ← pyGetField payload "input"
    let _c ← pyGetField payload "config"
    .error .typeErr
  else if reqHasTag "run_queries" req then do
    let payload ← reqGet req "run_queries"
    let q ← pyGetField payload "query"
    let i ← pyGetField payload "input"
    let c ← pyGetField payload "config"
    let r ← ProtocolService.run_queries pl sess q i c
    pure (r, sess)
  else if reqHasTag "get_tables" req then
    .error (.notImplemented "get_tables")
  else if reqHasTag "get_fields" req then
    .error (.notImplemented "get_fields")
  else
    match req with
    | .str s => .error (.notImplemented s)
    | .obj _ => .error .typeErr

/-- The field map of the synthetic row of the test plugin (test_protocol.py):
one Ok-wrapped unicode string per requested field. -/
def testFields : PyVal → List (String × PyVal)
  | .list fs => fs.map (fun f =>
      ("test_" ++ pyStr f,
       PyVal.dict [("Ok", PyVal.dict [("unicodestring", PyVal.str "test")])]))
  | _ => []

/-- TestProtocol.run_queries (test_protocol.py lines 21-28) on a
dict-shaped query (iterating a non-dict query would raise in Python,
which no caller here does): one Ok table envelope with a single synthetic
row per requested table. -/
def testRunQueries (qry : PyVal) : PyVal :=
  match qry with
  | .dict tables => .dict (tables.map (fun tf =>
      ("test_" ++ tf.1,
       PyVal.dict [("Ok", PyVal.dict [
         ("value", PyVal.list [PyVal.dict (testFields tf.2)]),
         ("warnings", PyVal.list [])])])))
  | _ => PyVal.none

/-- The TestProtocol plugin (test_protocol.py) as a PluginModel: loaders
are the identity, the query methods return synthetic values. -/
def TestProtocol.model : PluginModel :=
  { protocol := "test"
    version := "0.1.0"
    load_inputs := fun i => i
    load_config := fun c => c
    show_queries := fun _ => .str "queries: ..."
    run_queries := fun qry _ _ => testRunQueries qry }






/-- After a break, the rest of the entries of the page are skipped. -/
theorem foldlM_stepEntry_broke (old : Option Int) (cached : Option TsRecord)
    (es : List MEntry) (st : AggSt) (h : st.broke = true) :
    es.foldlM (stepEntry old cached) st = .ok st := by
  induction es with
  | nil => rfl
  | cons e es ih =>
    have hstep : stepEntry old cached st e = .ok st := by
      unfold stepEntry
      rw [h]
      rfl
    simp only [List.foldlM_cons, hstep]
    exact ih

/-- Claim C5: with a stored record for the path and a first returned
entry whose timestamp equals the stored timestamp, the aggregator
short-circuits at the first entry: it returns the cached result rows
verbatim and writes back a record with the same timestamp and the same
rows, so the state is unchanged and a second call on the unchanged state
with the same upstream pages returns the identical rows again. -/
theorem get_historic_metric_value_idempotent (t : Int)
    (vs : Option (List (String × MVal))) (rs : List (List (String × PyVal)))
    (name : PyVal) (params : MParams) (es : List MEntry)
    (rest : List (List MEntry)) :
    UnitySession.get_historic_metric_value (some { timestamp := some t, result := rs })
      name params ({ ts := t, values := vs } :: es) rest =
    .ok (rs, { timestamp := some t, result := rs }) := by
  have hstep : stepEntry (some t) (some { timestamp := some t, result := rs })
      initAgg { ts := t, values := vs } =
      .ok { newTs := some t, count := 0, series := [], result := rs,
            done := true, broke := true } := by
    unfold stepEntry
    have : ((some t : Option Int) == some t) = true := by simp
    simp [initAgg, optFalsy, this]
  have hfold : ({ ts := t, values := vs } :: es).foldlM
      (stepEntry (some t) (some { timestamp := some t, result := rs })) initAgg =
      .ok { newTs := some t, count := 0, series := [], result := rs,
            done := true, broke := true } := by
    simp only [List.foldlM_cons, hstep]
    exact foldlM_stepEntry_broke _ _ _ _ rfl
  have hrp : runPages (some t) (some { timestamp := some t, result := rs }) rest
      initAgg ({ ts := t, values := vs } :: es) =
      .ok { newTs := some t, count := 0, series := [], result := rs,
            done := true, broke := true } := by
    unfold runPages
    rw [hfold]
    rfl
  show (do
    let st ← runPages (some t) (some { timestamp := some t, result := rs }) rest
      initAgg ({ ts := t, values := vs } :: es)
    let result := if st.result.isEmpty then
        st.series.map (fun kv => buildRow params name kv.1.1 kv.1.2 kv.2 st.count)
      else st.result
    pure (result, ({ timestamp := st.newTs, result := result } : TsRecord))) =
    Except.ok (rs, ({ timestamp := some t, result := rs } : TsRecord))
  rw [hrp]
  cases rs <;> rfl

/-- One entry keeps the sample count at or below six when the stored
timestamp is zero: the accumulation guard then requires count <= 5. -/
theorem stepEntry_first_poll_count (cached : Option TsRecord) (st st' : AggSt)
    (e : MEntry) (h : stepEntry (some 0) cached st e = .ok st')
    (hc : st.count ≤ 6) : st'.count ≤ 6 := by
  unfold stepEntry at h
  dsimp only at h
  repeat' split at h
  all_goals try exact Except.noConfusion h
  all_goals cases h
  all_goals try exact hc
  all_goals simp_all

/-- A page keeps the sample count at or below six when the stored
timestamp is zero. -/
theorem foldlM_first_poll_count (cached : Option TsRecord) :
    ∀ (es : List MEntry) (st st' : AggSt), st.count ≤ 6 →
      es.foldlM (stepEntry (some 0) cached) st = .ok st' → st'.count ≤ 6 := by
  intro es
  induction es with
  | nil =>
    intro st st' hc h
    rw [List.foldlM_nil] at h
    cases h
    exact hc
  | cons e es ih =>
    intro st st' hc h
    rw [List.foldlM_cons] at h
    cases hs : stepEntry (some 0) cached st e with
    | error err => rw [hs] at h; exact Except.noConfusion h
    | ok st1 =>
      rw [hs] at h
      exact ih st1 st' (stepEntry_first_poll_count cached st st1 e hs hc) h

/-- The whole pagination walk keeps the sample count at or below six when
the stored timestamp is zero. -/
theorem runPages_first_poll_count (cached : Option TsRecord) :
    ∀ (rest : List (List MEntry)) (st : AggSt) (page : List MEntry) (st' : AggSt),
      st.count ≤ 6 → runPages (some 0) cached rest st page = .ok st' → st'.count ≤ 6 := by
  intro rest
  induction rest with
  | nil =>
    intro st page st' hc h
    unfold runPages at h
    cases hf : page.foldlM (stepEntry (some 0) cached) st with
    | error err => rw [hf] at h; exact Except.noConfusion h
    | ok st1 =>
      rw [hf] at h
      have h1 : st1.count ≤ 6 := foldlM_first_poll_count cached page st st1 hc hf
      have h2 : (if st1.done = true then (pure st1 : Except PyErr AggSt)
                 else pure { st1 with done := true }) = .ok st' := h
      cases hd : st1.done
      · rw [hd] at h2
        simp only [Bool.false_eq_true, if_false] at h2
        rw [← Except.ok.inj h2]
        exact h1
      · rw [hd] at h2
        simp only [if_true] at h2
        rw [← Except.ok.inj h2]
        exact h1
  | cons p ps ih =>
    intro st page st' hc h
    unfold runPages at h
    cases hf : page.foldlM (stepEntry (some 0) cached) st with
    | error err => rw [hf] at h; exact Except.noConfusion h
    | ok st1 =>
      rw [hf] at h
      have h1 : st1.count ≤ 6 := foldlM_first_poll_count cached page st st1 hc hf
      have h2 : (if st1.done = true then (pure st1 : Except PyErr AggSt)
                 else runPages (some 0) cached ps st1 p) = .ok st' := h
      cases hd : st1.done
      · rw [hd] at h2
        simp only [Bool.false_eq_true, if_false] at h2
        exact ih st1 p st' h1 h2
      · rw [hd] at h2
        simp only [if_true] at h2
        rw [← Except.ok.inj h2]
        exact h1

/-- Claim C1 (amended): when the stored timestamp is zero — the
first-ever poll for the path, or an absent state record — the aggregation
loop accumulates at most six samples into the running sums before
emitting. (With a nonzero stored timestamp the guard
`count <= 5 or old_timestamp != 0` is always true, so accumulation is
bounded only by the stored timestamp; see the counterexample.) -/
theorem first_poll_accumulates_at_most_six (cached : Option TsRecord)
    (firstPage : List MEntry) (morePages : List (List MEntry)) (st' : AggSt)
    (h : runPages (some 0) cached morePages initAgg firstPage = .ok st') :
    st'.count ≤ 6 :=
  runPages_first_poll_count cached morePages initAgg firstPage st' (by decide) h

/-- Claim C1 counterexample: with prior state for the path (stored
timestamp 1, nonzero), a response carrying seven fresh samples
accumulates all seven of them into the running sums — more than six —
because the guard `count <= 5 or old_timestamp != 0` never bounds the
count when the stored timestamp is nonzero. -/
theorem prior_state_accumulates_seven :
    Except.map AggSt.count (runPages (some 1)
      (some { timestamp := some 1, result := [] }) [] initAgg
      [⟨100, some [("spa", .num 1)]⟩, ⟨99, some [("spa", .num 1)]⟩,
       ⟨98, some [("spa", .num 1)]⟩, ⟨97, some [("spa", .num 1)]⟩,
       ⟨96, some [("spa", .num 1)]⟩, ⟨95, some [("spa", .num 1)]⟩,
       ⟨94, some [("spa", .num 1)]⟩]) = .ok 7 := rfl

/-- Witness for first_poll_accumulates_at_most_six: a first poll (no
stored record, stored timestamp 0) over eight fresh samples accumulates
exactly six of them, and the theorem bounds the count by six. -/
theorem first_poll_bound_witness :
    runPages (some 0) Option.none [] initAgg
      [⟨100, some [("spa", .num 1)]⟩, ⟨99, some [("spa", .num 1)]⟩,
       ⟨98, some [("spa", .num 1)]⟩, ⟨97, some [("spa", .num 1)]⟩,
       ⟨96, some [("spa", .num 1)]⟩, ⟨95, some [("spa", .num 1)]⟩,
       ⟨94, some [("spa", .num 1)]⟩, ⟨93, some [("spa", .num 1)]⟩] =
      .ok { newTs := some 100, count := 6, series := [(("spa", Option.none), 6)],
            result := [], done := true, broke := false } ∧
    ({ newTs := some 100, count := 6, series := [(("spa", Option.none), 6)],
       result := [], done := true, broke := false } : AggSt).count ≤ 6 :=
  ⟨rfl, first_poll_accumulates_at_most_six Option.none
    [⟨100, some [("spa", .num 1)]⟩, ⟨99, some [("spa", .num 1)]⟩,
     ⟨98, some [("spa", .num 1)]⟩, ⟨97, some [("spa", .num 1)]⟩,
     ⟨96, some [("spa", .num 1)]⟩, ⟨95, some [("spa", .num 1)]⟩,
     ⟨94, some [("spa", .num 1)]⟩, ⟨93, some [("spa", .num 1)]⟩] []
    { newTs := some 100, count := 6, series := [(("spa", Option.none), 6)],
      result := [], done := true, broke := false } rfl⟩

/-- With a stored record the entry step never raises and equals the total
helper. -/
theorem stepEntry_cached_eq (old : Option Int) (r : TsRecord) (st : AggSt)
    (e : MEntry) :
    stepEntry old (some r) st e = .ok (stepEntryOk old r st e) := by
  unfold stepEntry stepEntryOk
  dsimp only
  repeat' split
  all_goals rfl

/-- The entry step changes the candidate timestamp only when it was
falsy, making it the timestamp of the entry. -/
theorem stepEntryOk_newTs (old : Option Int) (r : TsRecord) (st : AggSt)
    (e : MEntry) :
    (stepEntryOk old r st e).newTs =
      if st.broke then st.newTs
      else if optFalsy st.newTs then some e.ts else st.newTs := by
  unfold stepEntryOk
  dsimp only
  repeat' split
  all_goals rfl

/-- With a stored record present, one entry step never raises, and it
changes the candidate new timestamp only when that was still falsy, in
which case it becomes the timestamp of the entry. -/
theorem stepEntry_cached_ok (old : Option Int) (r : TsRecord) (st : AggSt)
    (e : MEntry) :
    ∃ st', stepEntry old (some r) st e = .ok st' ∧
      st'.newTs = (if st.broke then st.newTs
                   else if optFalsy st.newTs then some e.ts else st.newTs) :=
  ⟨stepEntryOk old r st e, stepEntry_cached_eq old r st e,
   stepEntryOk_newTs old r st e⟩

/-- With a stored record present, a page fold never raises and preserves
a nonzero candidate timestamp. -/
theorem foldlM_cached_newTs (old : Option Int) (r : TsRecord) (t : Int)
    (ht : (t == 0) = false) :
    ∀ (es : List MEntry) (st : AggSt), st.newTs = some t →
      ∃ st', es.foldlM (stepEntry old (some r)) st = .ok st' ∧ st'.newTs = some t := by
  intro es
  induction es with
  | nil =>
    intro st hn
    exact ⟨st, by rw [List.foldlM_nil]; exact rfl, hn⟩
  | cons e es ih =>
    intro st hn
    obtain ⟨st1, hs, hn1⟩ := stepEntry_cached_ok old r st e
    have hn1' : st1.newTs = some t := by
      rw [hn1]
      cases hb : st.broke <;> simp [hn, optFalsy, ht]
    obtain ⟨st', hf, hn'⟩ := ih st1 hn1'
    refine ⟨st', ?_, hn'⟩
    rw [List.foldlM_cons, hs]
    exact hf

/-- With a stored record present, the pagination walk never raises and
preserves a nonzero candidate timestamp. -/
theorem runPages_cached_newTs (old : Option Int) (r : TsRecord) (t : Int)
    (ht : (t == 0) = false) :
    ∀ (rest : List (List MEntry)) (st : AggSt) (page : List MEntry),
      st.newTs = some t →
      ∃ st', runPages old (some r) rest st page = .ok st' ∧ st'.newTs = some t := by
  intro rest
  induction rest with
  | nil =>
    intro st page hn
    obtain ⟨st1, hf, hn1⟩ := foldlM_cached_newTs old r t ht page st hn
    have hred : runPages old (some r) [] st page =
        (if st1.done = true then (pure st1 : Except PyErr AggSt)
         else pure { st1 with done := true }) := by
      conv_lhs => rw [runPages]
      rw [hf]
      exact rfl
    cases hd : st1.done
    · rw [hd] at hred
      simp only [Bool.false_eq_true, if_false] at hred
      exact ⟨_, hred, hn1⟩
    · rw [hd] at hred
      simp only [if_true] at hred
      exact ⟨st1, hred, hn1⟩
  | cons p ps ih =>
    intro st page hn
    obtain ⟨st1, hf, hn1⟩ := foldlM_cached_newTs old r t ht page st hn
    have hred : runPages old (some r) (p :: ps) st page =
        (if st1.done = true then (pure st1 : Except PyErr AggSt)
         else runPages old (some r) ps st1 p) := by
      conv_lhs => rw [runPages]
      rw [hf]
      exact rfl
    cases hd : st1.done
    · rw [hd] at hred
      simp only [Bool.false_eq_true, if_false] at hred
      obtain ⟨st', h2, hn'⟩ := ih st1 p hn1
      exact ⟨st', hred.trans h2, hn'⟩
    · rw [hd] at hred
      simp only [if_true] at hred
      exact ⟨st1, hred, hn1⟩

/-- Claim C4 (amended): the record written back for the path carries
exactly the timestamp of the first entry of the response of the cycle (when
that timestamp is nonzero and a record was stored). Together with the
hypothesis that the response leads with a timestamp at least the stored
one, the stored timestamp does not decrease across the cycle; the code
itself does not enforce this, so a response leading with an older
timestamp makes the stored timestamp decrease (see the counterexample). -/
theorem get_historic_stores_first_entry_ts (r : TsRecord) (o : Int)
    (name : PyVal) (params : MParams) (e : MEntry) (es : List MEntry)
    (rest : List (List MEntry)) (_ho : r.timestamp = some o)
    (ht : e.ts ≠ 0) (_hle : o ≤ e.ts) :
    ∃ rows, UnitySession.get_historic_metric_value (some r) name params (e :: es) rest =
      .ok (rows, { timestamp := some e.ts, result := rows }) := by
  have htb : (e.ts == 0) = false := beq_eq_false_iff_ne.mpr ht
  obtain ⟨st1, hs, hn1⟩ := stepEntry_cached_ok r.timestamp r initAgg e
  have hn1' : st1.newTs = some e.ts := by rw [hn1]; rfl
  obtain ⟨st2, hf2, hn2⟩ := foldlM_cached_newTs r.timestamp r e.ts htb es st1 hn1'
  have hfold : (e :: es).foldlM (stepEntry r.timestamp (some r)) initAgg = .ok st2 := by
    rw [List.foldlM_cons, hs]
    exact hf2
  have hrest : ∃ stf, runPages r.timestamp (some r) rest initAgg (e :: es) = .ok stf ∧
      stf.newTs = some e.ts := by
    have hred : runPages r.timestamp (some r) rest initAgg (e :: es) =
        (if st2.done = true then (pure st2 : Except PyErr AggSt)
         else match rest with
              | [] => pure { st2 with done := true }
              | p :: ps => runPages r.timestamp (some r) ps st2 p) := by
      conv_lhs => rw [runPages]
      rw [hfold]
      exact rfl
    cases hd : st2.done
    · rw [hd] at hred
      simp only [Bool.false_eq_true, if_false] at hred
      cases rest with
      | nil => exact ⟨_, hred, hn2⟩
      | cons p ps =>
        obtain ⟨stf, h3, hn3⟩ := runPages_cached_newTs r.timestamp r e.ts htb ps st2 p hn2
        exact ⟨stf, hred.trans h3, hn3⟩
    · rw [hd] at hred
      simp only [if_true] at hred
      exact ⟨st2, hred, hn2⟩
  obtain ⟨stf, hrp, hnf⟩ := hrest
  have hcomp : UnitySession.get_historic_metric_value (some r) name params (e :: es) rest =
      (pure (if stf.result.isEmpty then
               stf.series.map (fun kv => buildRow params name kv.1.1 kv.1.2 kv.2 stf.count)
             else stf.result,
             ({ timestamp := stf.newTs,
                result := if stf.result.isEmpty then
                    stf.series.map (fun kv => buildRow params name kv.1.1 kv.1.2 kv.2 stf.count)
                  else stf.result } : TsRecord)) : Except PyErr _) := by
    show (do
      let st ← runPages r.timestamp (some r) rest initAgg (e :: es)
      let result := if st.result.isEmpty then
          st.series.map (fun kv : (String × Option String) × Int =>
            buildRow params name kv.1.1 kv.1.2 kv.2 st.count)
        else st.result
      pure (result, ({ timestamp := st.newTs, result := result } : TsRecord))) = _
    rw [hrp]
    exact rfl
  refine ⟨if stf.result.isEmpty then
      stf.series.map (fun kv : (String × Option String) × Int =>
        buildRow params name kv.1.1 kv.1.2 kv.2 stf.count)
    else stf.result, ?_⟩
  rw [hcomp, hnf]
  exact rfl

/-- Claim C4 counterexample: a cycle whose response leads with timestamp
50 while the stored timestamp is 100 overwrites the record with
timestamp 50 — the persisted timestamp for the path decreases. -/
theorem stored_timestamp_decreases :
    UnitySession.get_historic_metric_value
      (some { timestamp := some 100, result := [[("F", .str "x")]] })
      .none { sp := Option.none, key := Option.none, value := Option.none,
              name := Option.none }
      [⟨50, Option.none⟩] [] =
    .ok ([], { timestamp := some 50, result := [] }) ∧ (50 : Int) < 100 :=
  ⟨rfl, by decide⟩

/-- Witness for get_historic_stores_first_entry_ts: stored timestamp 5,
response leading with timestamp 7; the written-back record carries
timestamp 7. -/
theorem get_historic_stores_first_entry_ts_witness :
    ((some 5 : Option Int) = some 5 ∧ (7 : Int) ≠ 0 ∧ (5 : Int) ≤ 7) ∧
    ∃ rows, UnitySession.get_historic_metric_value
      (some { timestamp := some 5, result := [] }) .none
      { sp := Option.none, key := Option.none, value := Option.none,
        name := Option.none }
      [⟨7, Option.none⟩] [] =
      .ok (rows, { timestamp := some 7, result := rows }) :=
  ⟨⟨rfl, by decide, by decide⟩,
   get_historic_stores_first_entry_ts { timestamp := some 5, result := [] } 5
     .none { sp := Option.none, key := Option.none, value := Option.none,
             name := Option.none }
     ⟨7, Option.none⟩ [] [] rfl (by decide) (by decide)⟩

/-- Claim C2 (code evaluation at the failing input): with a successful
login and a query for tables T1 and T2 where the command of T1 raises
Exception("boom") and the command of T2 would succeed, run_queries propagates
the exception — the whole query aborts after attempting only T1, and no
table-level Err envelope is produced for T1 nor any Ok result for T2,
because the except clause of try_run is commented out in the source. -/
theorem run_queries_aborts_on_table_exception :
    UnityProtocol.run_queries { status_code := 200, text := "" }
      (fun t => if t == "T1" then .error (.exception "boom")
                else .ok (.dict [("value", .list []), ("warnings", .list [])]))
      [("T1", []), ("T2", [])] =
    (.error (.exception "boom"), ["T1"]) := rfl

/-- Claim C3 counterexample: with a login response of status 404 and two
requested tables, run_queries raises
ProtocolError("HTTP Status 404 - Not Found") — its outcome is an error,
not a mapping that reports each table as Err — and the list of executed
table commands is empty. -/
theorem login_404_raises_protocol_error :
    UnityProtocol.run_queries { status_code := 404, text := "" }
      (fun _ => .ok .none) [("T1", []), ("T2", [])] =
    (.error (.protocolError "HTTP Status 404 - Not Found"), []) := rfl

/-- Claim C3 (amended): whenever the login exchange returns HTTP status
404, run_queries raises ProtocolError("HTTP Status 404 - Not Found") — a
whole-query failure covering every requested table uniformly rather than
a per-table Err mapping — and executes no upstream table command. -/
theorem login_404_whole_query_error (txt : String)
    (runTable : String → Except PyErr PyVal) (qry : List (String × List String)) :
    UnityProtocol.run_queries { status_code := 404, text := txt } runTable qry =
    (.error (.protocolError "HTTP Status 404 - Not Found"), []) := rfl

/-- Claim C9 counterexample: the duration leaf "26:30:15.500" (26 hours,
30 minutes, 15.5 seconds) is not rendered with a "1 years" component:
26 hours integer-divided by 24 gives 1 day, and 1 day is far from a
year. -/
theorem duration_scenario_not_one_year :
    UnitySession.fill_in_row [("uptime", "F1")]
      (.dict [("uptime", .str "26:30:15.500")]) ≠
    .ok [("F1", .str "1 years, 1 days, 2 hours, 30 minutes, 15.500000 seconds")] := by
  intro h
  have heval : UnitySession.fill_in_row [("uptime", "F1")]
      (.dict [("uptime", .str "26:30:15.500")]) =
      .ok [("F1", .str "1 days, 2 hours, 30 minutes, 15.500000 seconds")] := rfl
  rw [heval] at h
  simp at h

/-- Claim C9 (amended): a single leaf matching the duration pattern is
reformatted with zero-valued components omitted; the duration value
"26:30:15.500" is rendered as
"1 days, 2 hours, 30 minutes, 15.500000 seconds" (the years component is
zero and therefore omitted). -/
theorem duration_scenario_eval :
    UnitySession.fill_in_row [("uptime", "F1")]
      (.dict [("uptime", .str "26:30:15.500")]) =
    .ok [("F1", .str "1 days, 2 hours, 30 minutes, 15.500000 seconds")] := rfl

/-- A non-wildcard step never raises, whatever the branches are. -/
theorem stepTree_no_star_aux (step : String) (h : step ≠ "*") :
    ∀ (tree : List PyVal) (acc : List PyVal),
      ∃ r, tree.foldlM (fun acc branch => do
        let nb ← stepBranch step branch
        pure (acc ++ nb)) acc = .ok r := by
  intro tree
  induction tree with
  | nil =>
    intro acc
    exact ⟨acc, by rw [List.foldlM_nil]; exact rfl⟩
  | cons b bs ih =>
    intro acc
    have hb : stepBranch step b =
        .ok [match b with
             | .dict kvs => (pyDictGet kvs step).getD PyVal.none
             | _ => PyVal.none] := by
      unfold stepBranch
      rw [if_neg h]
    obtain ⟨r, hr⟩ := ih (acc ++ [match b with
      | .dict kvs => (pyDictGet kvs step).getD PyVal.none
      | _ => PyVal.none])
    refine ⟨r, ?_⟩
    rw [List.foldlM_cons]
    show (do
      let nb ← stepBranch step b
      pure (acc ++ nb) : Except PyErr (List PyVal)) >>= _ = .ok r
    rw [hb]
    exact hr

/-- A non-wildcard step of the tree walk never raises. -/
theorem stepTree_no_star (step : String) (h : step ≠ "*") (tree : List PyVal) :
    ∃ r, stepTree step tree = .ok r :=
  stepTree_no_star_aux step h tree []

/-- A path without wildcards never raises, from any starting tree. -/
theorem foldl_steps_no_star :
    ∀ (path : List String) (t : List PyVal), "*" ∉ path →
      ∃ r, path.foldlM (fun tree step => stepTree step tree) t = .ok r := by
  intro path
  induction path with
  | nil =>
    intro t _
    exact ⟨t, by rw [List.foldlM_nil]; exact rfl⟩
  | cons s ss ih =>
    intro t hmem
    have hs : s ≠ "*" := by
      intro hh
      exact hmem (by rw [hh]; exact List.mem_cons_self _ _)
    obtain ⟨r1, h1⟩ := stepTree_no_star s hs t
    obtain ⟨r2, h2⟩ := ih r1 (fun hm => hmem (List.mem_cons_of_mem _ hm))
    refine ⟨r2, ?_⟩
    rw [List.foldlM_cons, h1]
    exact h2

/-- The wildcard expansion of a list branch contributes exactly its
elements (an empty list is falsy and contributes nothing, which is again
its elements). -/
theorem starExpand_list (xs : List PyVal) : starExpand (.list xs) = .ok xs := by
  cases xs <;> simp [starExpand, pyTruthy]

/-- The wildcard fold over list branches concatenates their elements. -/
theorem foldlM_star_lists :
    ∀ (xss : List (List PyVal)) (acc : List PyVal),
      (xss.map PyVal.list).foldlM (fun acc branch => do
        let nb ← stepBranch "*" branch
        pure (acc ++ nb)) acc = .ok (acc ++ xss.flatten) := by
  intro xss
  induction xss with
  | nil =>
    intro acc
    rw [List.map_nil, List.foldlM_nil]
    simp only [List.flatten_nil, List.append_nil]
    exact rfl
  | cons xi rest ih =>
    intro acc
    rw [List.map_cons, List.foldlM_cons]
    have hb : stepBranch "*" (.list xi) = .ok xi := by
      unfold stepBranch
      rw [if_pos rfl]
      exact starExpand_list xi
    show (do
      let nb ← stepBranch "*" (PyVal.list xi)
      pure (acc ++ nb) : Except PyErr (List PyVal)) >>= _ = _
    rw [hb]
    show (rest.map PyVal.list).foldlM _ (acc ++ xi) = _
    rw [ih (acc ++ xi)]
    simp [List.append_assoc]

/-- starExpand agrees with starParts on every safe branch. -/
theorem starExpand_safe (b : PyVal) (h : starSafe b = true) :
    starExpand b = .ok (starParts b) := by
  cases b with
  | none => rfl
  | bool b2 =>
    cases b2
    · rfl
    · simp [starSafe, pyTruthy] at h
  | int n =>
    have hn : (n != 0) = false := by simpa [starSafe, pyTruthy] using h
    simp [starExpand, pyTruthy, starParts, hn]
  | str s =>
    cases hb : s == ""
    · simp [starExpand, pyTruthy, starParts, bne, hb]
    · have : s = "" := eq_of_beq hb
      subst this
      rfl
  | list xs => exact starExpand_list xs
  | dict kvs => cases kvs <;> simp [starExpand, pyTruthy, starParts]

/-- stepBranch agrees with branchParts whenever a wildcard step only
meets a safe branch. -/
theorem stepBranch_safe (step : String) (b : PyVal)
    (h : step = "*" → starSafe b = true) :
    stepBranch step b = .ok (branchParts step b) := by
  unfold stepBranch branchParts
  by_cases hs : step = "*"
  · rw [if_pos hs, if_pos hs]
    exact starExpand_safe b (h hs)
  · rw [if_neg hs, if_neg hs]

/-- The fold of one step agrees with the concatenated
specification-side contributions when every wildcard branch is safe. -/
theorem stepTree_safe_aux (step : String) :
    ∀ (tree : List PyVal) (acc : List PyVal),
      (∀ b ∈ tree, step = "*" → starSafe b = true) →
      tree.foldlM (fun acc branch => do
        let nb ← stepBranch step branch
        pure (acc ++ nb)) acc = .ok (acc ++ (tree.map (branchParts step)).flatten) := by
  intro tree
  induction tree with
  | nil =>
    intro acc _
    rw [List.foldlM_nil]
    simp only [List.map_nil, List.flatten_nil, List.append_nil]
    exact rfl
  | cons b bs ih =>
    intro acc h
    rw [List.foldlM_cons]
    have hb := stepBranch_safe step b (fun hs => h b (List.mem_cons_self _ _) hs)
    show (do
      let nb ← stepBranch step b
      pure (acc ++ nb) : Except PyErr (List PyVal)) >>= _ = _
    rw [hb]
    show bs.foldlM _ (acc ++ branchParts step b) = _
    rw [ih (acc ++ branchParts step b) (fun x hx hs => h x (List.mem_cons_of_mem _ hx) hs)]
    simp [List.append_assoc]

/-- One step of the walk agrees with stepTreeOk when every wildcard
branch is safe. -/
theorem stepTree_safe (step : String) (tree : List PyVal)
    (h : step = "*" → tree.all starSafe = true) :
    stepTree step tree = .ok (stepTreeOk step tree) := by
  unfold stepTree stepTreeOk
  have := stepTree_safe_aux step tree []
    (fun b hb hs => List.all_eq_true.mp (h hs) b hb)
  rw [List.nil_append] at this
  exact this

/-- A walk passing the walkSafe check never raises and computes the
fold of the specification-side per-step results. -/
theorem foldlM_walkSafe :
    ∀ (path : List String) (tree : List PyVal), walkSafe path tree = true →
      path.foldlM (fun tree step => stepTree step tree) tree =
        .ok (path.foldl (fun t s => stepTreeOk s t) tree) := by
  intro path
  induction path with
  | nil =>
    intro tree _
    rw [List.foldlM_nil, List.foldl_nil]
    exact rfl
  | cons s ss ih =>
    intro tree h
    unfold walkSafe at h
    rw [Bool.and_eq_true] at h
    obtain ⟨h1, h2⟩ := h
    have hstep : s = "*" → tree.all starSafe = true := by
      intro hs
      subst hs
      simpa using h1
    rw [List.foldlM_cons, stepTree_safe s tree hstep, List.foldl_cons]
    exact ih (stepTreeOk s tree) h2

/-- Claim C10 (amended): follow_path returns a list and never raises
provided every branch each wildcard step is applied to is a list, a
dict, a string or falsy: (i) whenever the walkSafe check — which mirrors
the walk and tests exactly the branches each wildcard step processes —
holds, follow_path succeeds and returns the fold of the per-step
contributions stepTreeOk, where a wildcard contributes the elements of a
list, the keys of a dict, the characters of a string and nothing for a
falsy branch, and a non-wildcard step contributes the dict entry under
the step or None; in particular (ii) a path with no wildcard step never
raises; (iii) a non-wildcard step applied to a branch that is neither a
list nor a dict yields None for that branch; (iv) on a dict it yields
the entry stored under the step, or None; (v) a wildcard applied to a
falsy value contributes no branches; (vi) a wildcard over a list of list
branches flattens one level; (vii) a wildcard on a dict contributes its
keys; and (viii) a wildcard on a string contributes its characters. (A
wildcard applied to a truthy number or boolean raises TypeError — see
the counterexample.) -/
theorem follow_path_characterization :
    (∀ (dictionary : PyVal) (path : List String),
       walkSafe path (initTree dictionary) = true →
       UnitySession.follow_path dictionary path =
         .ok (path.foldl (fun t s => stepTreeOk s t) (initTree dictionary))) ∧
    (∀ (tree : PyVal) (path : List String), "*" ∉ path →
       ∃ r, UnitySession.follow_path tree path = .ok r) ∧
    (∀ (v : PyVal) (step : String), step ≠ "*" → (∀ xs, v ≠ .list xs) →
       (∀ kvs, v ≠ .dict kvs) → UnitySession.follow_path v [step] = .ok [PyVal.none]) ∧
    (∀ (kvs : List (String × PyVal)) (step : String), step ≠ "*" →
       UnitySession.follow_path (.dict kvs) [step] =
         .ok [(pyDictGet kvs step).getD PyVal.none]) ∧
    (∀ v : PyVal, pyTruthy v = false → UnitySession.follow_path v ["*"] = .ok []) ∧
    (∀ xss : List (List PyVal),
       UnitySession.follow_path (.list (xss.map PyVal.list)) ["*"] = .ok xss.flatten) ∧
    (∀ kvs : List (String × PyVal),
       UnitySession.follow_path (.dict kvs) ["*"] =
         .ok (kvs.map (fun kv => PyVal.str kv.1))) ∧
    (∀ s : String,
       UnitySession.follow_path (.str s) ["*"] =
         .ok (s.toList.map (fun c => PyVal.str (String.singleton c)))) := by
  have h0 : ∀ (dictionary : PyVal) (path : List String),
      walkSafe path (initTree dictionary) = true →
      UnitySession.follow_path dictionary path =
        .ok (path.foldl (fun t s => stepTreeOk s t) (initTree dictionary)) := by
    intro d path h
    have := foldlM_walkSafe path (initTree d) h
    cases d <;> exact this
  refine ⟨h0, ?_, ?_, ?_, ?_, ?_, ?_, ?_⟩
  · intro tree path hmem
    exact foldl_steps_no_star path _ hmem
  · intro v step h hlist hdict
    cases v with
    | list xs => exact absurd rfl (hlist xs)
    | dict kvs => exact absurd rfl (hdict kvs)
    | none => simp [UnitySession.follow_path, stepTree, stepBranch, h]
    | bool b => simp [UnitySession.follow_path, stepTree, stepBranch, h]
    | int n => simp [UnitySession.follow_path, stepTree, stepBranch, h]
    | str s => simp [UnitySession.follow_path, stepTree, stepBranch, h]
  · intro kvs step h
    simp [UnitySession.follow_path, stepTree, stepBranch, h]
  · intro v hf
    cases v with
    | list xs =>
      have : xs = [] := by
        simpa [pyTruthy] using hf
      subst this
      rfl
    | none => rfl
    | bool b => simp [pyTruthy] at hf; subst hf; rfl
    | int n =>
      have : n = 0 := by simpa [pyTruthy] using hf
      subst this
      rfl
    | str s =>
      have : s = "" := by simpa [pyTruthy] using hf
      subst this
      rfl
    | dict kvs =>
      have : kvs = [] := by simpa [pyTruthy] using hf
      subst this
      rfl
  · intro xss
    show ["*"].foldlM (fun tree step => stepTree step tree) (xss.map PyVal.list) = _
    rw [List.foldlM_cons]
    have : stepTree "*" (xss.map PyVal.list) = .ok xss.flatten := foldlM_star_lists xss []
    rw [this]
    exact rfl
  · intro kvs
    have := h0 (.dict kvs) ["*"] rfl
    rw [this]
    simp [stepTreeOk, branchParts, starParts, initTree]
  · intro s
    have := h0 (.str s) ["*"] rfl
    rw [this]
    simp [stepTreeOk, branchParts, starParts, initTree]

/-- Claim C10 counterexample: a wildcard step applied to a truthy
non-iterable leaf raises: follow_path(5, ["*"]) attempts
`new_branches += 5` and raises TypeError instead of returning a list. -/
theorem follow_path_star_on_int_raises :
    UnitySession.follow_path (.int 5) ["*"] = .error .typeError := rfl

/-- Witness for follow_path_characterization: concrete instances of its
hypothesised parts, including a safe walk that mixes a dict step with a
wildcard over a list branch. -/
theorem follow_path_characterization_witness :
    (walkSafe ["a", "*"] (initTree (.dict [("a", .list [.int 1, .int 2])])) = true ∧
     UnitySession.follow_path (.dict [("a", .list [.int 1, .int 2])]) ["a", "*"] =
       .ok [.int 1, .int 2]) ∧
    (∃ r, UnitySession.follow_path (.dict [("a", .int 1)]) ["a", "b"] = .ok r) ∧
    UnitySession.follow_path (.str "zz") ["name"] = .ok [PyVal.none] ∧
    UnitySession.follow_path (.dict [("k", .int 2)]) ["k"] =
      .ok [(pyDictGet [("k", .int 2)] "k").getD PyVal.none] ∧
    UnitySession.follow_path (.list []) ["*"] = .ok [] ∧
    UnitySession.follow_path (.list [.list [.int 1], .list [], .list [.int 2, .int 3]])
      ["*"] = .ok ([[.int 1], [], [.int 2, .int 3]] : List (List PyVal)).flatten ∧
    UnitySession.follow_path (.dict [("k1", .int 1), ("k2", .int 2)]) ["*"] =
      .ok (([("k1", PyVal.int 1), ("k2", PyVal.int 2)] : List (String × PyVal)).map
        (fun kv => PyVal.str kv.1)) ∧
    UnitySession.follow_path (.str "ab") ["*"] =
      .ok ("ab".toList.map (fun c => PyVal.str (String.singleton c))) :=
  ⟨⟨rfl, (follow_path_characterization.1 (.dict [("a", .list [.int 1, .int 2])])
      ["a", "*"] rfl).trans rfl⟩,
   follow_path_characterization.2.1 _ _ (by decide),
   follow_path_characterization.2.2.1 _ _ (by decide)
     (fun xs h => PyVal.noConfusion h) (fun kvs h => PyVal.noConfusion h),
   follow_path_characterization.2.2.2.1 [("k", .int 2)] "k" (by decide),
   follow_path_characterization.2.2.2.2.1 _ rfl,
   follow_path_characterization.2.2.2.2.2.1 [[.int 1], [], [.int 2, .int 3]],
   follow_path_characterization.2.2.2.2.2.2.1 [("k1", .int 1), ("k2", .int 2)],
   follow_path_characterization.2.2.2.2.2.2.2 "ab"⟩

/-- Claim C6 counterexample: in a session holding config handle "h" under
reference "r1", an unload_config request — whether for the loaded
reference "r1" or for an absent reference "missing" — fails with the
Exception "Request not implemented: unload_config": it removes nothing
(the handler never runs, so the session is untouched) and an unknown
reference does not produce an UnknownReference/KeyError failure. -/
theorem unload_config_not_implemented_cex :
    (ProtocolService.request TestProtocol.model "u1"
       { inputs := [], configs := [(.str "r1", .str "h")] }
       (.obj [("unload_config", .dict [("config", .str "r1")])]) =
     .error (.notImplemented "unload_config")) ∧
    (ProtocolService.request TestProtocol.model "u1"
       { inputs := [], configs := [(.str "r1", .str "h")] }
       (.obj [("unload_config", .dict [("config", .str "missing")])]) =
     .error (.notImplemented "unload_config")) ∧
    DErr.notImplemented "unload_config" ≠ DErr.keyErr (.str "missing") :=
  ⟨rfl, rfl, fun h => DErr.noConfusion h⟩

/-- Claim C6 (amended): ProtocolService defines no unload_config and no
unload_inputs method, so the callable(getattr(...)) guard of the dispatcher
makes every unload_config or unload_inputs request fail with
"Request not implemented: unload_config" (resp. unload_inputs), whatever
the session contents and the reference payload; no handle is removed and
no UnknownReference failure is ever produced. -/
theorem unload_requests_not_implemented (pl : PluginModel) (g : String)
    (sess : ProtocolSession) (payload : PyVal) :
    ProtocolService.request pl g sess (.obj [("unload_config", payload)]) =
      .error (.notImplemented "unload_config") ∧
    ProtocolService.request pl g sess (.obj [("unload_inputs", payload)]) =
      .error (.notImplemented "unload_inputs") :=
  ⟨rfl, rfl⟩

/-- Claim C7 counterexample: an object-shaped request with the unknown
tag "frobnicate" does not fail with an error naming the tag: the
fallthrough `"Request not implemented: " + req` concatenates a string
with a dict and raises TypeError, an error naming nothing and
indistinguishable in kind from any other TypeError. -/
theorem unknown_tag_obj_request_typeerror :
    ProtocolService.request TestProtocol.model "u1"
      { inputs := [], configs := [] } (.obj [("frobnicate", .none)]) =
      .error .typeErr ∧
    DErr.typeErr ≠ DErr.notImplemented "frobnicate" :=
  ⟨rfl, fun h => DErr.noConfusion h⟩

/-- Claim C7 (amended): (i) an object-shaped request whose single tag is
none of the eight tags matched by key membership falls through to the
message concatenation and raises TypeError (this includes tags
"protocol"/"version", which match only string-shaped requests); (ii) a
string-shaped request that is neither "protocol" nor "version" and
contains none of the eight membership-checked tags as a substring fails
with "Request not implemented: <tag>", the same Exception form used for
absent methods; (iii) for the four recognized tags whose methods the
service itself does not define — unload_inputs, unload_config,
get_tables, get_fields — any object-shaped request fails with
"Request not implemented: <method>" regardless of the plugin. -/
theorem request_dispatch_failures :
    (∀ (pl : PluginModel) (g : String) (sess : ProtocolSession) (t : String)
       (p : PyVal),
       (t == "load_inputs") = false → (t == "unload_inputs") = false →
       (t == "load_config") = false → (t == "unload_config") = false →
       (t == "show_queries") = false → (t == "run_queries") = false →
       (t == "get_tables") = false → (t == "get_fields") = false →
       ProtocolService.request pl g sess (.obj [(t, p)]) = .error .typeErr) ∧
    (∀ (pl : PluginModel) (g : String) (sess : ProtocolSession) (s : String),
       (s == "protocol") = false → (s == "version") = false →
       containsChars "load_inputs".toList s.toList = false →
       containsChars "unload_inputs".toList s.toList = false →
       containsChars "load_config".toList s.toList = false →
       containsChars "unload_config".toList s.toList = false →
       containsChars "show_queries".toList s.toList = false →
       containsChars "run_queries".toList s.toList = false →
       containsChars "get_tables".toList s.toList = false →
       containsChars "get_fields".toList s.toList = false →
       ProtocolService.request pl g sess (.str s) = .error (.notImplemented s)) ∧
    (∀ (pl : PluginModel) (g : String) (sess : ProtocolSession) (p : PyVal),
       ProtocolService.request pl g sess (.obj [("unload_inputs", p)]) =
         .error (.notImplemented "unload_inputs") ∧
       ProtocolService.request pl g sess (.obj [("unload_config", p)]) =
         .error (.notImplemented "unload_config") ∧
       ProtocolService.request pl g sess (.obj [("get_tables", p)]) =
         .error (.notImplemented "get_tables") ∧
       ProtocolService.request pl g sess (.obj [("get_fields", p)]) =
         .error (.notImplemented "get_fields")) := by
  refine ⟨?_, ?_, ?_⟩
  · intro pl g sess t p h1 h2 h3 h4 h5 h6 h7 h8
    simp [ProtocolService.request, reqIsStr, reqHasTag, h1, h2, h3, h4, h5, h6, h7, h8]
  · intro pl g sess s h1 h2 h3 h4 h5 h6 h7 h8 h9 h10
    simp only [ProtocolService.request, reqIsStr, reqHasTag,
               h1, h2, h3, h4, h5, h6, h7, h8, h9, h10,
               Bool.false_eq_true, if_false]
  · intro pl g sess p
    exact ⟨rfl, rfl, rfl, rfl⟩

/-- Witness for request_dispatch_failures: the unknown tag "mystery_op",
object- and string-shaped, at a concrete session. -/
theorem request_dispatch_failures_witness :
    ProtocolService.request TestProtocol.model "u9" { inputs := [], configs := [] }
      (.obj [("mystery_op", .int 3)]) = .error .typeErr ∧
    ProtocolService.request TestProtocol.model "u9" { inputs := [], configs := [] }
      (.str "mystery_op") = .error (.notImplemented "mystery_op") :=
  ⟨request_dispatch_failures.1 TestProtocol.model "u9"
     { inputs := [], configs := [] } "mystery_op" (.int 3)
     rfl rfl rfl rfl rfl rfl rfl rfl,
   request_dispatch_failures.2.1 TestProtocol.model "u9"
     { inputs := [], configs := [] } "mystery_op"
     rfl rfl rfl rfl rfl rfl rfl rfl rfl rfl⟩

/-- A PyVal string key equals itself under the embedded Python equality. -/
theorem pyStrBeq_self (s : String) : ((PyVal.str s) == (PyVal.str s)) = true := by
  show pyValBeq (.str s) (.str s) = true
  simp [pyValBeq]

/-- After replacing the value under a present key, lookup finds the new
value. -/
theorem find?_map_replace (k v : PyVal) (hk : (k == k) = true) :
    ∀ m : List (PyVal × PyVal), m.any (fun kv => kv.1 == k) = true →
      (m.map (fun kv => if kv.1 == k then (k, v) else kv)).find?
        (fun kv => kv.1 == k) = some (k, v) := by
  intro m
  induction m with
  | nil => intro h; simp at h
  | cons p rest ih =>
    intro h
    rw [List.map_cons]
    cases hp : (p.1 == k)
    · have hrest : rest.any (fun kv => kv.1 == k) = true := by
        simpa [List.any_cons, hp] using h
      simp only [hp, Bool.false_eq_true, if_false]
      rw [List.find?_cons_of_neg _ (by simp [hp])]
      exact ih hrest
    · simp only [hp, if_true]
      rw [List.find?_cons_of_pos _ (by simp [hk])]

/-- Appending a fresh association to a map without the key makes lookup
find it. -/
theorem find?_append_absent (k v : PyVal) (hk : (k == k) = true) :
    ∀ m : List (PyVal × PyVal), m.any (fun kv => kv.1 == k) = false →
      (m ++ [(k, v)]).find? (fun kv => kv.1 == k) = some (k, v) := by
  intro m
  induction m with
  | nil =>
    intro _
    rw [List.nil_append]
    rw [List.find?_cons_of_pos _ (by simp [hk])]
  | cons p rest ih =>
    intro h
    have hp : (p.1 == k) = false := by
      cases hpk : (p.1 == k)
      · rfl
      · rw [List.any_cons, hpk] at h
        exact absurd h (by simp)
    have hrest : rest.any (fun kv => kv.1 == k) = false := by
      simpa [List.any_cons, hp] using h
    rw [List.cons_append, List.find?_cons_of_neg _ (by simp [hp])]
    exact ih hrest

/-- Looking up a string reference right after storing a handle under it
yields that handle. -/
theorem sessGet_sessSet (m : List (PyVal × PyVal)) (s : String) (v : PyVal) :
    sessGet (sessSet m (.str s) v) (.str s) = .ok v := by
  have hk := pyStrBeq_self s
  unfold sessSet
  cases hany : m.any (fun kv => kv.1 == PyVal.str s)
  · simp only [hany, Bool.false_eq_true, if_false]
    unfold sessGet
    rw [find?_append_absent _ v hk m hany]
    rfl
  · simp only [hany, if_true]
    unfold sessGet
    rw [find?_map_replace _ v hk m hany]
    rfl

/-- Claim C8: (i) a run_queries request whose input and config references
were previously returned by load_inputs and load_config resolves both
references in the session mappings and delegates to the plugin with the
resolved handles — never the raw references — and succeeds; (ii) the
load_inputs/load_config requests do return the minted reference after
storing the plugin-loaded handle under it; (iii) a run_queries request
whose config reference was never stored fails with a KeyError carrying
that reference (the dict-lookup failure standing for UnknownReference). -/
theorem run_queries_resolves_refs :
    (∀ (pl : PluginModel) (g : String) (sess : ProtocolSession)
       (fi fc : String) (rawI rawC q : PyVal),
       ProtocolService.request pl g
         { inputs := sessSet sess.inputs (.str fi) (pl.load_inputs rawI),
           configs := sessSet sess.configs (.str fc) (pl.load_config rawC) }
         (.obj [("run_queries", .dict [("query", q), ("input", .str fi),
                                       ("config", .str fc)])]) =
       .ok (pl.run_queries q (pl.load_inputs rawI) (pl.load_config rawC),
            { inputs := sessSet sess.inputs (.str fi) (pl.load_inputs rawI),
              configs := sessSet sess.configs (.str fc) (pl.load_config rawC) })) ∧
    (∀ (pl : PluginModel) (g : String) (sess : ProtocolSession) (raw : PyVal),
       ProtocolService.request pl g sess
         (.obj [("load_inputs", .dict [("input", raw)])]) =
       .ok (.str g, { sess with
                      inputs := sessSet sess.inputs (.str g) (pl.load_inputs raw) }) ∧
       ProtocolService.request pl g sess
         (.obj [("load_config", .dict [("config", raw)])]) =
       .ok (.str g, { sess with
                      configs := sessSet sess.configs (.str g) (pl.load_config raw) })) ∧
    (∀ (pl : PluginModel) (g : String) (sess : ProtocolSession) (q hi : PyVal)
       (ri rc : String),
       sessGet sess.inputs (.str ri) = .ok hi →
       sess.configs.find? (fun kv => kv.1 == PyVal.str rc) = Option.none →
       ProtocolService.request pl g sess
         (.obj [("run_queries", .dict [("query", q), ("input", .str ri),
                                       ("config", .str rc)])]) =
       .error (.keyErr (.str rc))) := by
  refine ⟨?_, ?_, ?_⟩
  · intro pl g sess fi fc rawI rawC q
    show (do
      let payload ← reqGet (.obj [("run_queries", .dict [("query", q), ("input", .str fi),
                                                          ("config", .str fc)])]) "run_queries"
      let qv ← pyGetField payload "query"
      let i ← pyGetField payload "input"
      let c ← pyGetField payload "config"
      let r ← ProtocolService.run_queries pl
        { inputs := sessSet sess.inputs (.str fi) (pl.load_inputs rawI),
          configs := sessSet sess.configs (.str fc) (pl.load_config rawC) } qv i c
      pure (r, ({ inputs := sessSet sess.inputs (.str fi) (pl.load_inputs rawI),
                  configs := sessSet sess.configs (.str fc) (pl.load_config rawC) }
                : ProtocolSession))) = _
    show (do
      let r ← ProtocolService.run_queries pl
        { inputs := sessSet sess.inputs (.str fi) (pl.load_inputs rawI),
          configs := sessSet sess.configs (.str fc) (pl.load_config rawC) } q
        (.str fi) (.str fc)
      pure (r, ({ inputs := sessSet sess.inputs (.str fi) (pl.load_inputs rawI),
                  configs := sessSet sess.configs (.str fc) (pl.load_config rawC) }
                : ProtocolSession))) = _
    unfold ProtocolService.run_queries
    rw [sessGet_sessSet, sessGet_sessSet]
    exact rfl
  · intro pl g sess raw
    exact ⟨rfl, rfl⟩
  · intro pl g sess q hi ri rc h1 h2
    show (do
      let r ← ProtocolService.run_queries pl sess q (.str ri) (.str rc)
      pure (r, sess)) = _
    unfold ProtocolService.run_queries
    rw [h1]
    have h3 : sessGet sess.configs (.str rc) = .error (.keyErr (.str rc)) := by
      unfold sessGet
      rw [h2]
      rfl
    rw [h3]
    exact rfl

/-- Witness for run_queries_resolves_refs: a session holding an input
handle under "i1" and no config handles; run_queries with config ref "c1"
fails with KeyError "c1". -/
theorem run_queries_resolves_refs_witness :
    (sessGet [((PyVal.str "i1"), PyVal.none)] (.str "i1") = .ok PyVal.none ∧
     ([] : List (PyVal × PyVal)).find? (fun kv => kv.1 == PyVal.str "c1") =
       Option.none) ∧
    ProtocolService.request TestProtocol.model "u7"
      { inputs := [(.str "i1", PyVal.none)], configs := [] }
      (.obj [("run_queries", .dict [("query", .dict []), ("input", .str "i1"),
                                    ("config", .str "c1")])]) =
      .error (.keyErr (.str "c1")) :=
  ⟨⟨rfl, rfl⟩,
   run_queries_resolves_refs.2.2 TestProtocol.model "u7"
     { inputs := [(.str "i1", PyVal.none)], configs := [] }
     (.dict []) PyVal.none "i1" "c1" rfl rfl⟩
